import Mathlib

/-!
# pg-listen-notify-benchmark: a shallow embedding of `main.go` and `bench_test.go`

The repository drives PostgreSQL LISTEN/NOTIFY through the `pgx` client library.
The library calls (`pgx.Connect`, `Listen`, `Prepare`, `Exec`,
`WaitForNotification`) and the process environment are outside the repository;
they appear here as explicit inputs of the embedded functions.
-/

namespace PgListenNotify

/-! ## Process environment and `extractConfig` (main.go) -/

/-- The process environment: a variable is either unset or bound to a value. -/
abbrev Env := String → Option String

/-- Go `os.Getenv`: the value of the variable, the empty string when it is unset. -/
def Getenv (env : Env) (key : String) : String :=
  match env key with
  | some v => v
  | none => ""

/-- The fields of `pgx.ConnConfig` that `extractConfig` assigns; the others keep
their zero value. -/
structure ConnConfig where
  Host : String
  User : String
  Password : String
  Database : String
  deriving DecidableEq, Repr

/-- Embedding of `extractConfig` (main.go lines 52-73), statement by statement. -/
def extractConfig (env : Env) : ConnConfig :=
  let Host := Getenv env "PG_HOST"
  let Host := if Host = "" then "localhost" else Host
  let User := Getenv env "PG_USER"
  let User := if User = "" then Getenv env "USER" else User
  let Password := Getenv env "PG_PASSWORD"
  let Database := Getenv env "PG_DATABASE"
  let Database := if Database = "" then User else Database
  { Host := Host, User := User, Password := Password, Database := Database }

/-! ## The standalone entry point `main` (main.go) -/

/-- A notification as delivered by `pgx`: the fields the repository reads. -/
structure Notification where
  Channel : String
  Payload : String
  deriving DecidableEq, Repr

/-- The library calls `main` performs, in program order. -/
inductive Step where
  | connectNotifier
  | connectListener
  | listen
  | prepare
  | exec
  | wait
  deriving DecidableEq, Repr

/-- What each library call returns when `main` reaches it: `none` is a nil error,
`some e` an error whose text is `e`; the wait also yields the notification. -/
structure Pgx where
  connectNotifier : Option String
  connectListener : Option String
  listen : Option String
  prepare : Option String
  exec : Option String
  wait : Except String Notification

/-- Observable actions of a run of `main`. -/
inductive Event where
  | call (s : Step)
  | stderr (line : String)
  | stdout (n : Notification)
  deriving DecidableEq, Repr

/-- A finished run: the actions in order and the process exit status. -/
structure Run where
  events : List Event
  exitCode : Nat
  deriving DecidableEq, Repr

/-- Go `fmt.Fprintln(os.Stderr, label, err)`: operands separated by a space,
newline appended. -/
def Fprintln (label err : String) : String :=
  label ++ " " ++ err ++ "\n"

/-- Embedding of `main` (main.go lines 10-50). Each `if err != nil` block prints
to standard error and calls `os.Exit(1)`, which ends the run. -/
def main (w : Pgx) : Run :=
  match w.connectNotifier with
  | some err =>
    { events := [.call .connectNotifier, .stderr (Fprintln "pgx.Connect failed:" err)],
      exitCode := 1 }
  | none =>
  match w.connectListener with
  | some err =>
    { events := [.call .connectNotifier, .call .connectListener,
        .stderr (Fprintln "pgx.Connect failed:" err)],
      exitCode := 1 }
  | none =>
  match w.listen with
  | some err =>
    { events := [.call .connectNotifier, .call .connectListener, .call .listen,
        .stderr (Fprintln "Listen failed:" err)],
      exitCode := 1 }
  | none =>
  match w.prepare with
  | some err =>
    { events := [.call .connectNotifier, .call .connectListener, .call .listen,
        .call .prepare, .stderr (Fprintln "Prepare failed:" err)],
      exitCode := 1 }
  | none =>
  match w.exec with
  | some err =>
    { events := [.call .connectNotifier, .call .connectListener, .call .listen,
        .call .prepare, .call .exec, .stderr (Fprintln "Listen failed:" err)],
      exitCode := 1 }
  | none =>
  match w.wait with
  | .error err =>
    { events := [.call .connectNotifier, .call .connectListener, .call .listen,
        .call .prepare, .call .exec, .call .wait,
        .stderr (Fprintln "Did not receive notification" err)],
      exitCode := 1 }
  | .ok n =>
    { events := [.call .connectNotifier, .call .connectListener, .call .listen,
        .call .prepare, .call .exec, .call .wait, .stdout n],
      exitCode := 0 }

/-! ## Go integer conversions

The embedding fixes Go `int` at 64 bits (amd64, arm64); `b.N` and the loop
counters are values of that type. -/

/-- Go `int64(x)`: the two's-complement value of `x` in 64 bits. -/
def toInt64 (x : Int) : Int := (x + 2 ^ 63) % 2 ^ 64 - 2 ^ 63

/-- Go `int(x)` and arithmetic in type `int`, 64 bits wide. -/
def toInt (x : Int) : Int := (x + 2 ^ 63) % 2 ^ 64 - 2 ^ 63

/-! ## `strconv` at base 10 and bit size 64 -/

/-- The `Err` of a `strconv.NumError`: `strconv.ErrSyntax` or `strconv.ErrRange`. -/
inductive NumError where
  | ErrSyntax
  | ErrRange
  deriving DecidableEq, Repr

/-- Modelled from the spec: the digit table of Go package `strconv`, which is not
part of the repository; entry `d` of "0123456789". -/
def digitChar (d : Nat) : Char := "0123456789".data.getD d '0'

/-- Modelled from the spec: the digit loop of `strconv.formatBits` at base 10
(`for u >= 10 { q := u / 10; a[i] = digits[u - q*10]; u = q }; a[i] = digits[u]`),
writing right to left in front of `a`. The first argument bounds the number of
passes; `u` itself is always enough. -/
def formatLoop : Nat → Nat → List Char → List Char
  | 0, u, a => digitChar u :: a
  | fuel + 1, u, a =>
    if 10 ≤ u then
      let q := u / 10
      formatLoop fuel q (digitChar (u - q * 10) :: a)
    else
      digitChar u :: a

/-- Modelled from the spec: `strconv.formatBits` at base 10 for magnitude `u`. -/
def formatBits (u : Nat) (a : List Char) : List Char := formatLoop u u a

/-- Modelled from the spec: Go `strconv.FormatInt(i, 10)`, the payload encoding
("an integer encoded as a string"); `strconv` is not part of the repository.
Decimal digits of the magnitude, a leading minus sign for a negative value. -/
def FormatInt (i : Int) : String :=
  if i < 0 then String.mk ('-' :: formatBits i.natAbs [])
  else String.mk (formatBits i.natAbs [])

/-- Largest `uint64`. -/
def maxUint64 : Nat := 2 ^ 64 - 1

/-- Modelled from the spec: the digit loop of `strconv.ParseUint(s, 10, 64)`.
A character outside '0'..'9' is a syntax error; a value that leaves `uint64`
is a range error reported with the largest value. -/
def parseDigits (n : Nat) : List Char → Nat × Option NumError
  | [] => (n, none)
  | c :: cs =>
    if '0' ≤ c ∧ c ≤ '9' then
      let d := c.toNat - '0'.toNat
      if n ≥ maxUint64 / 10 + 1 then (maxUint64, some .ErrRange)
      else
        let n := (n * 10) % 2 ^ 64
        let n1 := (n + d) % 2 ^ 64
        if n1 < n ∨ n1 > maxUint64 then (maxUint64, some .ErrRange)
        else parseDigits n1 cs
    else (0, some .ErrSyntax)

/-- Modelled from the spec: Go `strconv.ParseUint(s, 10, 64)`; the empty string is
a syntax error. -/
def ParseUint (s : List Char) : Nat × Option NumError :=
  if s = [] then (0, some .ErrSyntax) else parseDigits 0 s

/-- Modelled from the spec: Go `strconv.ParseInt(s, 10, 64)`, the payload decoding
("parses the payload as an integer"); `strconv` is not part of the repository.
Returns the value and the error (`none` for nil) as Go does: an optional sign,
then `ParseUint`, then the range check against `1 << 63`. -/
def ParseInt (s : String) : Int × Option NumError :=
  match s.data with
  | [] => (0, some .ErrSyntax)
  | c :: rest =>
    let neg := decide (c = '-')
    let body := if c = '+' then rest else if c = '-' then rest else c :: rest
    match ParseUint body with
    | (_, some .ErrSyntax) => (0, some .ErrSyntax)
    | (un, _) =>
      let cutoff : Nat := 2 ^ 63
      if !neg && un ≥ cutoff then ((cutoff : Int) - 1, some .ErrRange)
      else if neg && un > cutoff then (-(cutoff : Int), some .ErrRange)
      else
        let n := toInt64 un
        (if neg then toInt64 (-n) else n, none)

/-! ## The listener checks of bench_test.go -/

/-- The three `b.Fatal` calls of a listener loop body. -/
inductive Failure where
  | waitError (err : String)
  | parseError (err : NumError)
  | notExpected
  deriving DecidableEq, Repr

/-- Loop body of `BenchmarkManualSequentialListenNotify` after the notify
(bench_test.go lines 56-68), applied to what `WaitForNotification` returned at
counter `i`: `some f` when `b.Fatal` is reached, `none` when the iteration passes. -/
def sequentialCheck (i : Int) (r : Except String Notification) : Option Failure :=
  match r with
  | .error err => some (.waitError err)
  | .ok n =>
    match ParseInt n.Payload with
    | (_, some err) => some (.parseError err)
    | (j, none) =>
      if n.Channel ≠ "bench" ∨ i ≠ toInt j then some .notExpected else none

/-- Loop body of the listener goroutine of `BenchmarkManualParallelListenNotify`
(bench_test.go lines 93-105). -/
def parallelCheck (i : Int) (r : Except String Notification) : Option Failure :=
  match r with
  | .error err => some (.waitError err)
  | .ok n =>
    match ParseInt n.Payload with
    | (_, some err) => some (.parseError err)
    | (j, none) =>
      if n.Channel ≠ "bench" ∨ i ≠ toInt j then some .notExpected else none

/-- Loop body of the listener goroutine of `BenchmarkSingleInsertWithTriggeredNotify`
(bench_test.go lines 166-178); the parsed value is discarded (`_, err = ...`) and
the counter `i` is not read. -/
def singleInsertCheck (_i : Int) (r : Except String Notification) : Option Failure :=
  match r with
  | .error err => some (.waitError err)
  | .ok n =>
    match ParseInt n.Payload with
    | (_, some err) => some (.parseError err)
    | (_, none) =>
      if n.Channel ≠ "bench" then some .notExpected else none

/-- Loop body of the listener goroutine of `BenchmarkMultipleInsertWithNotify`
(bench_test.go lines 224-236); the parsed value is discarded and the counter `i`
is not read. -/
def multipleInsertCheck (_i : Int) (r : Except String Notification) : Option Failure :=
  match r with
  | .error err => some (.waitError err)
  | .ok n =>
    match ParseInt n.Payload with
    | (_, some err) => some (.parseError err)
    | (_, none) =>
      if n.Channel ≠ "bench" then some .notExpected else none

/-! ## Loops over a server model -/

/-- Modelled from the spec: the database server as seen by the listening
connection, which is outside the repository: a lossless first-in first-out
queue of the notifications raised on the subscribed channel and not yet
received. -/
structure Server where
  pending : List Notification
  deriving DecidableEq, Repr

/-- Modelled from the spec: `select pg_notify($1, $2)` delivers one notification
to the listener, behind those already pending. -/
def Server.notify (s : Server) (channel payload : String) : Server :=
  { pending := s.pending ++ [{ Channel := channel, Payload := payload }] }

/-- Modelled from the spec: `WaitForNotification(time.Second)` returns the oldest
pending notification, or the library's timeout error when none is pending. -/
def Server.WaitForNotification (s : Server) : Except String Notification × Server :=
  match s.pending with
  | [] => (.error "Notification Timeout", s)
  | n :: rest => (.ok n, { pending := rest })

/-- Go `for i := start; ...; i++ { body }` run for `k` more passes; a pass that
reaches `b.Fatal` ends the loop. -/
def forLoop {σ : Type} (body : Int → σ → Except Failure σ) :
    Nat → Int → σ → Except Failure σ
  | 0, _, s => .ok s
  | k + 1, i, s =>
    match body i s with
    | .error f => .error f
    | .ok s1 => forLoop body k (i + 1) s1

/-- Go `for i := 0; i < n; i++ { body }` for `n` of type `int`: `n` passes when
`n` is positive, none otherwise. -/
def forRange {σ : Type} (n : Int) (body : Int → σ → Except Failure σ) (s : σ) :
    Except Failure σ :=
  forLoop body n.toNat 0 s

/-- State of the sequential benchmark: the server queue plus a log of what was
sent, what was received, and how many notifications were pending right before
each notify and each wait. -/
structure SeqState where
  server : Server
  sent : List Notification
  received : List Notification
  pendingAtNotify : List Nat
  pendingAtWait : List Nat
  deriving DecidableEq, Repr

/-- One pass of the loop of `BenchmarkManualSequentialListenNotify`
(bench_test.go lines 54-68): notify, wait, check. -/
def sequentialBody (i : Int) (st : SeqState) : Except Failure SeqState :=
  let payload := FormatInt (toInt64 i)
  let atNotify := st.server.pending.length
  let server := st.server.notify "bench" payload
  let atWait := server.pending.length
  let r := server.WaitForNotification
  match sequentialCheck i r.1 with
  | some f => .error f
  | none =>
    .ok { server := r.2
          sent := st.sent ++ [{ Channel := "bench", Payload := payload }]
          received := st.received ++ (match r.1 with | .ok n => [n] | .error _ => [])
          pendingAtNotify := st.pendingAtNotify ++ [atNotify]
          pendingAtWait := st.pendingAtWait ++ [atWait] }

/-- The timed loop of `BenchmarkManualSequentialListenNotify` (bench_test.go lines
53-69) for `b.N = N`, after a successful setup, on an idle server. -/
def BenchmarkManualSequentialListenNotify (N : Int) : Except Failure SeqState :=
  forRange N sequentialBody
    { server := { pending := [] }, sent := [], received := [],
      pendingAtNotify := [], pendingAtWait := [] }

/-- Modelled from the spec: the table `notify_bench` with the trigger the
benchmarks install; the database is outside the repository. `rows` is column `n`
of the inserted rows in insertion order, `server` the queue towards the listener. -/
structure Database where
  rows : List Int
  server : Server
  deriving DecidableEq, Repr

theorem digitChar_spec (d : Nat) (h : d < 10) :
    '0' ≤ digitChar d ∧ digitChar d ≤ '9' ∧ (digitChar d).toNat - '0'.toNat = d ∧
      digitChar d ≠ '+' ∧ digitChar d ≠ '-' := by
  interval_cases d <;> decide

theorem formatLoop_acc (fuel u : Nat) (a : List Char) :
    formatLoop fuel u a = formatLoop fuel u [] ++ a := by
  induction fuel generalizing u a with
  | zero => simp [formatLoop]
  | succ k ih =>
    simp only [formatLoop]
    split
    · rw [ih (u / 10) (_ :: a), ih (u / 10) [_]]
      simp
    · simp

theorem formatLoop_head (fuel u : Nat) (a : List Char) (h : u ≤ fuel) :
    ∃ d rest, d < 10 ∧ formatLoop fuel u a = digitChar d :: rest := by
  induction fuel generalizing u a with
  | zero => exact ⟨u, a, by omega, by simp [formatLoop]⟩
  | succ k ih =>
    simp only [formatLoop]
    split
    · exact ih (u / 10) _ (by omega)
    · exact ⟨u, a, by omega, rfl⟩

theorem parseDigits_step (n d : Nat) (cs : List Char) (hd : d < 10)
    (hn : n * 10 + d < 2 ^ 64) :
    parseDigits n (digitChar d :: cs) = parseDigits (n * 10 + d) cs := by
  obtain ⟨h0, h9, hv, -, -⟩ := digitChar_spec d hd
  have h1 : ¬ (n ≥ maxUint64 / 10 + 1) := by simp [maxUint64]; omega
  have h2 : (n * 10) % 2 ^ 64 = n * 10 := Nat.mod_eq_of_lt (by omega)
  have h3 : (n * 10 + d) % 2 ^ 64 = n * 10 + d := Nat.mod_eq_of_lt hn
  have h4 : ¬ (n * 10 + d < n * 10 ∨ n * 10 + d > maxUint64) := by simp [maxUint64]; omega
  simp only [parseDigits, h0, h9, and_self, if_true, hv, h1, if_false, h2, h3, h4]

theorem parseDigits_append (n : Nat) (xs ys : List Char) :
    parseDigits n (xs ++ ys) =
      match parseDigits n xs with
      | (m, none) => parseDigits m ys
      | (m, some e) => (m, some e) := by
  induction xs generalizing n with
  | nil => simp [parseDigits]
  | cons c cs ih =>
    simp only [List.cons_append, parseDigits]
    split
    · split
      · rfl
      · split
        · rfl
        · exact ih _
    · rfl

theorem parseDigits_formatLoop (fuel u : Nat) (h : u ≤ fuel) (hu : u < 2 ^ 64) :
    parseDigits 0 (formatLoop fuel u []) = (u, none) := by
  induction fuel generalizing u with
  | zero =>
    have : u = 0 := by omega
    subst this
    decide
  | succ k ih =>
    simp only [formatLoop]
    split
    · rename_i h10
      rw [formatLoop_acc, parseDigits_append, ih (u / 10) (by omega) (by omega)]
      simp only
      rw [parseDigits_step _ _ _ (by omega) (by omega)]
      simp only [parseDigits]
      congr 1
      omega
    · rw [parseDigits_step 0 u [] (by omega) (by omega)]
      simp [parseDigits]

theorem ParseUint_formatBits (u : Nat) (hu : u < 2 ^ 64) :
    ParseUint (formatBits u []) = (u, none) := by
  obtain ⟨d, rest, -, hd⟩ := formatLoop_head u u [] le_rfl
  have := parseDigits_formatLoop u u le_rfl hu
  unfold ParseUint formatBits
  rw [hd] at this ⊢
  simpa using this

theorem ParseInt_FormatInt (z : Int) (hlo : -2 ^ 63 ≤ z) (hhi : z < 2 ^ 63) :
    ParseInt (FormatInt z) = (z, none) := by
  have hu : z.natAbs < 2 ^ 64 := by omega
  have hp := ParseUint_formatBits z.natAbs hu
  obtain ⟨d, rest, hd10, hd⟩ := formatLoop_head z.natAbs z.natAbs [] le_rfl
  obtain ⟨-, -, -, hplus, hminus⟩ := digitChar_spec d hd10
  unfold formatBits at hp
  by_cases hneg : z < 0
  · simp only [FormatInt, hneg, if_true, ParseInt, formatBits]
    simp [hp, toInt64]
    have h1 : ¬ (9223372036854775808 < z.natAbs) := by omega
    have h2 : |z| = -z := abs_of_neg hneg
    rw [if_neg h1, h2]
    simp only [Prod.mk.injEq, and_true]
    omega
  · simp only [FormatInt, hneg, if_false, ParseInt, formatBits]
    rw [hd] at hp ⊢
    simp [hp, hplus, hminus, toInt64]
    have h1 : ¬ (9223372036854775808 ≤ z.natAbs) := by omega
    have h2 : |z| = z := abs_of_nonneg (by omega)
    rw [if_neg h1, h2]
    simp only [Prod.mk.injEq, and_true]
    omega


theorem sequentialBody_ok (i : Int) (st : SeqState) (h0 : 0 ≤ i) (h1 : i < 2 ^ 63)
    (hq : st.server.pending = []) :
    sequentialBody i st = .ok
      { server := { pending := [] }
        sent := st.sent ++ [{ Channel := "bench", Payload := FormatInt i }]
        received := st.received ++ [{ Channel := "bench", Payload := FormatInt i }]
        pendingAtNotify := st.pendingAtNotify ++ [0]
        pendingAtWait := st.pendingAtWait ++ [1] } := by
  have e64 : toInt64 i = i := by unfold toInt64; omega
  have ei : toInt i = i := by unfold toInt; omega
  have hp := ParseInt_FormatInt i (by omega) h1
  simp [sequentialBody, Server.notify, Server.WaitForNotification, hq, e64,
    sequentialCheck, hp, ei]

theorem sequentialLoop_ok (k : Nat) (i : Int) (st : SeqState) (h0 : 0 ≤ i)
    (h1 : i + k ≤ 2 ^ 63) (hq : st.server.pending = []) :
    forLoop sequentialBody k i st = .ok
      { server := { pending := [] }
        sent := st.sent ++
          (List.range k).map (fun t => { Channel := "bench", Payload := FormatInt (i + t) })
        received := st.received ++
          (List.range k).map (fun t => { Channel := "bench", Payload := FormatInt (i + t) })
        pendingAtNotify := st.pendingAtNotify ++ List.replicate k 0
        pendingAtWait := st.pendingAtWait ++ List.replicate k 1 } := by
  induction k generalizing i st with
  | zero =>
    obtain ⟨⟨p⟩, _, _, _, _⟩ := st
    simp_all [forLoop]
  | succ k ih =>
    have hb := sequentialBody_ok i st h0 (by omega) hq
    simp only [forLoop, hb]
    rw [ih (i + 1) _ (by omega) (by push_cast at h1; omega) rfl]
    simp only [List.range_succ_eq_map, List.map_cons, List.map_map, List.replicate_succ,
      List.append_assoc, List.singleton_append, Nat.cast_zero, add_zero]
    have hf : ((fun (t : Nat) => ({ Channel := "bench", Payload := FormatInt (i + 1 + t) } :
        Notification))) =
        ((fun (t : Nat) => ({ Channel := "bench", Payload := FormatInt (i + t) } :
          Notification)) ∘ Nat.succ) := by
      funext t
      simp only [Function.comp, Nat.succ_eq_add_one, Nat.cast_add, Nat.cast_one]
      congr 2
      omega
    rw [hf]

/-- C5: `extractConfig` returns as Host the value of PG_HOST when it is set and
non-empty and "localhost" otherwise, so Host is never the empty string. -/
theorem extractConfig_host (env : Env) :
    (∀ v, env "PG_HOST" = some v → v ≠ "" → (extractConfig env).Host = v) ∧
    ((env "PG_HOST" = none ∨ env "PG_HOST" = some "") →
      (extractConfig env).Host = "localhost") ∧
    (extractConfig env).Host ≠ "" := by
  refine ⟨?_, ?_, ?_⟩
  · intro v hv hne
    simp [extractConfig, Getenv, hv, hne]
  · rintro (h | h) <;> simp [extractConfig, Getenv, h]
  · simp only [extractConfig]
    split
    · decide
    · assumption

/-- C4: `extractConfig` returns as User the value of PG_USER when it is set and
non-empty and otherwise the OS user, read as the USER environment variable. -/
theorem extractConfig_user (env : Env) :
    (∀ v, env "PG_USER" = some v → v ≠ "" → (extractConfig env).User = v) ∧
    ((env "PG_USER" = none ∨ env "PG_USER" = some "") →
      (extractConfig env).User = Getenv env "USER") := by
  refine ⟨?_, ?_⟩
  · intro v hv hne
    simp [extractConfig, Getenv, hv, hne]
  · rintro (h | h) <;> simp [extractConfig, Getenv, h]

/-- C3: `extractConfig` returns as Database the value of PG_DATABASE when it is
set and non-empty and otherwise the User of the returned config, also when that
User was itself defaulted from the OS user. -/
theorem extractConfig_database (env : Env) :
    (∀ v, env "PG_DATABASE" = some v → v ≠ "" → (extractConfig env).Database = v) ∧
    ((env "PG_DATABASE" = none ∨ env "PG_DATABASE" = some "") →
      (extractConfig env).Database = (extractConfig env).User ∧
      ((env "PG_USER" = none ∨ env "PG_USER" = some "") →
        (extractConfig env).Database = Getenv env "USER")) := by
  refine ⟨?_, ?_⟩
  · intro v hv hne
    simp [extractConfig, Getenv, hv, hne]
  · rintro (h | h)
    · refine ⟨by simp [extractConfig, Getenv, h], ?_⟩
      rintro (h2 | h2) <;> simp [extractConfig, Getenv, h, h2]
    · refine ⟨by simp [extractConfig, Getenv, h], ?_⟩
      rintro (h2 | h2) <;> simp [extractConfig, Getenv, h, h2]

/-- C10: a failure of the exec of the notify statement and a failure of listen,
with the same error `e`, make `main` write the same line to standard error:
"Listen failed: e". -/
theorem main_exec_failure_message (e : String) (r : Except String Notification) :
    (main { connectNotifier := none, connectListener := none, listen := none,
            prepare := none, exec := some e, wait := r }).events.getLast? =
      some (Event.stderr (Fprintln "Listen failed:" e)) ∧
    (main { connectNotifier := none, connectListener := none, listen := some e,
            prepare := none, exec := none, wait := r }).events.getLast? =
      some (Event.stderr (Fprintln "Listen failed:" e)) := by
  constructor <;> simp [main]

/-- C2 as stated fails: at counter 0 the listener loops of the two insert
benchmarks accept a notification on "bench" whose payload parses to 5. -/
theorem insert_checks_ignore_counter :
    ParseInt "5" = (5, none) ∧ toInt 5 ≠ 0 ∧
    singleInsertCheck 0 (.ok { Channel := "bench", Payload := "5" }) = none ∧
    multipleInsertCheck 0 (.ok { Channel := "bench", Payload := "5" }) = none ∧
    sequentialCheck 0 (.ok { Channel := "bench", Payload := "5" }) = some .notExpected := by
  decide

/-- C2 amended: in every listener loop a wait error, a payload that does not
parse, or a channel other than "bench" reaches `b.Fatal`; in the sequential and
the parallel loop so does a parsed payload different from the loop counter, and
nothing else does; the two insert loops do not compare the parsed payload. -/
theorem listener_checks (i : Int) (r : Except String Notification) :
    (sequentialCheck i r ≠ none ↔
      (∃ e, r = .error e) ∨
      ∃ n, r = .ok n ∧ ((ParseInt n.Payload).2 ≠ none ∨ n.Channel ≠ "bench" ∨
        i ≠ toInt (ParseInt n.Payload).1)) ∧
    (parallelCheck i r ≠ none ↔
      (∃ e, r = .error e) ∨
      ∃ n, r = .ok n ∧ ((ParseInt n.Payload).2 ≠ none ∨ n.Channel ≠ "bench" ∨
        i ≠ toInt (ParseInt n.Payload).1)) ∧
    (singleInsertCheck i r ≠ none ↔
      (∃ e, r = .error e) ∨
      ∃ n, r = .ok n ∧ ((ParseInt n.Payload).2 ≠ none ∨ n.Channel ≠ "bench")) ∧
    (multipleInsertCheck i r ≠ none ↔
      (∃ e, r = .error e) ∨
      ∃ n, r = .ok n ∧ ((ParseInt n.Payload).2 ≠ none ∨ n.Channel ≠ "bench")) := by
  refine ⟨?_, ?_, ?_, ?_⟩
  all_goals
    cases r with
    | error e => simp [sequentialCheck, parallelCheck, singleInsertCheck, multipleInsertCheck]
    | ok n =>
      rcases hp : ParseInt n.Payload with ⟨j, _ | err⟩
      · by_cases hc : n.Channel = "bench" <;> by_cases hj : i = toInt j <;>
          simp [sequentialCheck, parallelCheck, singleInsertCheck, multipleInsertCheck,
            hp, hc, hj]
      · simp [sequentialCheck, parallelCheck, singleInsertCheck, multipleInsertCheck, hp]

/-- C1: for a counter `i` of type `int` with `0 ≤ i`, the payload of iteration
`i`, `FormatInt(int64(i), 10)`, parses without error to `j` with `int(j) = i`,
and a notification on "bench" with that payload passes the check of the
sequential and of the parallel listener loop at counter `i`. -/
theorem payload_roundtrip (i : Int) (h0 : 0 ≤ i) (h1 : i < 2 ^ 63) :
    (∃ j, ParseInt (FormatInt (toInt64 i)) = (j, none) ∧ toInt j = i) ∧
    sequentialCheck i (.ok { Channel := "bench", Payload := FormatInt (toInt64 i) }) = none ∧
    parallelCheck i (.ok { Channel := "bench", Payload := FormatInt (toInt64 i) }) = none := by
  have e64 : toInt64 i = i := by unfold toInt64; omega
  have ei : toInt i = i := by unfold toInt; omega
  have hp := ParseInt_FormatInt i (by omega) h1
  rw [e64]
  refine ⟨⟨i, hp, ei⟩, ?_, ?_⟩
  · simp [sequentialCheck, hp, ei]
  · simp [parallelCheck, hp, ei]

/-- C1 at `i = 42`: the payload is "42", it parses to 42, and the notification
`("bench", "42")` is accepted at counter 42. -/
theorem payload_roundtrip_42 :
    FormatInt (toInt64 42) = "42" ∧ ParseInt "42" = (42, none) ∧
    sequentialCheck 42 (.ok { Channel := "bench", Payload := "42" }) = none := by
  have h := payload_roundtrip 42 (by norm_num) (by norm_num)
  have e : FormatInt (toInt64 42) = "42" := by decide
  rw [e] at h
  exact ⟨e, by decide, h.2.1⟩

/-- C7: for every `b.N = N` of type `int`, on a lossless first-in first-out server
the sequential loop runs all `N` passes without reaching `b.Fatal`; nothing is
pending before each notify and exactly one notification before each wait; the
received notifications are the sent ones in the same order, the `k`-th carrying
the payload of counter `k` on channel "bench". -/
theorem sequential_in_order (N : Nat) (hN : N < 2 ^ 63) :
    BenchmarkManualSequentialListenNotify (N : Int) = .ok
      { server := { pending := [] }
        sent := (List.range N).map
          (fun (k : Nat) => { Channel := "bench", Payload := FormatInt (k : Int) })
        received := (List.range N).map
          (fun (k : Nat) => { Channel := "bench", Payload := FormatInt (k : Int) })
        pendingAtNotify := List.replicate N 0
        pendingAtWait := List.replicate N 1 } := by
  unfold BenchmarkManualSequentialListenNotify forRange
  rw [Int.toNat_ofNat, sequentialLoop_ok N 0 _ le_rfl (by push_cast; omega) rfl]
  simp

/-- C7 at `N = 3`: three passes, payloads "0", "1", "2" received in order. -/
theorem sequential_in_order_3 :
    BenchmarkManualSequentialListenNotify 3 = .ok
      { server := { pending := [] }
        sent := [⟨"bench", "0"⟩, ⟨"bench", "1"⟩, ⟨"bench", "2"⟩]
        received := [⟨"bench", "0"⟩, ⟨"bench", "1"⟩, ⟨"bench", "2"⟩]
        pendingAtNotify := [0, 0, 0]
        pendingAtWait := [1, 1, 1] } := by
  exact (sequential_in_order 3 (by norm_num)).trans (by rfl)

end PgListenNotify
